import Mathlib

/-!
Verification of the posix interface-enumeration core (`src/posix.rs`).

The file shallowly embeds the two components of the source:

* the interface-list handle (`IfAddrs`), its iterator (`IfAddrsIterator`)
  and the helper `do_broadcast`;
* the change watcher `detect_interface_changes`.

Foreign memory (the OS-allocated `ifaddrs` linked list) is modelled as a
total map from pointer values (`Nat`, with `0` playing the role of the null
pointer) to record values.  Syscalls and the standard-library socket wrapper
are modelled as an environment record supplying each call's outcome; the
resource claims are stated over an instrumented variant that also emits the
allocation / read / release events the source performs, in program order.
-/

namespace IfAddrsSpec

/-- A raw `sockaddr` value as seen through a `*mut sockaddr` pointer: either
the null pointer, a non-null pointer to an address of a recognised family
(IPv4 or IPv6, the payload abstracting the address bytes), or a non-null
pointer to an address of an unsupported family. -/
inductive RawSockaddr where
  | null : RawSockaddr
  | v4 (addr : Nat) : RawSockaddr
  | v6 (addr : Nat) : RawSockaddr
  | unsupported (family : Nat) : RawSockaddr
deriving DecidableEq, Repr

/-- A structured IP address (`std::net::IpAddr`). -/
inductive IpAddr where
  | v4 (addr : Nat) : IpAddr
  | v6 (addr : Nat) : IpAddr
deriving DecidableEq, Repr

/-- Modelled from the spec: the address-translation collaborator
`crate::sockaddr::to_ipaddr` (a module of this repository that is not under
`src/`).  Per the spec it is a "pure function mapping a raw, family-tagged
socket address structure to a structured IP address value, or none if the
family is unrecognized or the structure is null". -/
def to_ipaddr : RawSockaddr → Option IpAddr
  | RawSockaddr.null => none
  | RawSockaddr.v4 a => some (IpAddr.v4 a)
  | RawSockaddr.v6 a => some (IpAddr.v6 a)
  | RawSockaddr.unsupported _ => none

/-- One `libc::ifaddrs` record.  `ifa_next` is the forward pointer (`0` is
null).  On Linux-like targets the alternate-address storage slot is the
union field `ifa_ifu`; on BSD-like targets the same slot is named
`ifa_dstaddr`.  The model carries both names; a build selects one of them
(see `Platform` and `do_broadcast`). -/
structure Ifaddrs where
  ifa_next : Nat
  ifa_name : String
  ifa_flags : Nat
  ifa_addr : RawSockaddr
  ifa_netmask : RawSockaddr
  ifa_ifu : RawSockaddr
  ifa_dstaddr : RawSockaddr
deriving DecidableEq, Repr

/-- The foreign heap holding the OS-allocated list: a total map from non-null
pointer values to `ifaddrs` records. -/
def Mem : Type := Nat → Ifaddrs

/-- Compile-time platform classification used by the `#[cfg(...)]` blocks of
`do_broadcast`: `linuxLike` covers linux / android / l4re / emscripten /
fuchsia / hurd / nacl, `bsdLike` everything else. -/
inductive Platform where
  | linuxLike : Platform
  | bsdLike : Platform
deriving DecidableEq, Repr

/-- `do_broadcast` (src/posix.rs:19-45): reads the platform-selected
alternate-address field of the record and converts it with
`sockaddr::to_ipaddr`. -/
def do_broadcast (plat : Platform) (ifaddr : Ifaddrs) : Option IpAddr :=
  let sockaddr :=
    match plat with
    | Platform.linuxLike => ifaddr.ifa_ifu
    | Platform.bsdLike => ifaddr.ifa_dstaddr
  to_ipaddr sockaddr

/-- The io error classes the embedded code can produce.  `osError e` stands
for `io::Error::last_os_error()` with errno `e`; `wouldBlock` and
`invalidInput` are the corresponding `io::ErrorKind` classes. -/
inductive ErrorKind where
  | wouldBlock : ErrorKind
  | invalidInput : ErrorKind
  | osError (errno : Int) : ErrorKind
  | other (code : Nat) : ErrorKind
deriving DecidableEq, Repr

/-- Outcome of the `getifaddrs` syscall as observed by `IfAddrs::new`: the
return value, the head pointer written through the out-parameter when the
call succeeds, and the OS last-error code when it fails. -/
structure GetifaddrsEnv where
  ret : Int
  outPtr : Nat
  errno : Int
deriving DecidableEq, Repr

/-- The interface-list handle (src/posix.rs:47-49): owns the head pointer of
one OS-allocated list. -/
structure IfAddrs where
  inner : Nat
deriving DecidableEq, Repr

/-- `IfAddrs::new` (src/posix.rs:53-64): one `getifaddrs` call; `-1` means
failure and returns `io::Error::last_os_error()`, otherwise the handle holds
the pointer the syscall wrote. -/
def IfAddrs.new (env : GetifaddrsEnv) : Except ErrorKind IfAddrs :=
  if env.ret = -1 then Except.error (ErrorKind.osError env.errno)
  else Except.ok { inner := env.outPtr }

/-- The iterator (src/posix.rs:80-82): a non-owning cursor into the list. -/
structure IfAddrsIterator where
  next : Nat
deriving DecidableEq, Repr

/-- `IfAddrs::iter` (src/posix.rs:66-68): every call builds a fresh iterator
positioned at the handle's stored head pointer. -/
def IfAddrs.iter (s : IfAddrs) : IfAddrsIterator :=
  { next := s.inner }

/-- `IfAddrsIterator::next` (src/posix.rs:88-99): if the cursor is null,
end of sequence; otherwise copy the current record out by value, and advance
the cursor to that record's `ifa_next`. -/
def iterNext (mem : Mem) (it : IfAddrsIterator) : Option (Ifaddrs × IfAddrsIterator) :=
  if it.next = 0 then none
  else
    let result := mem it.next
    some (result, { next := result.ifa_next })

/-- Run the iterator for at most `fuel` calls to `next`, collecting the
yielded records (the fuel only truncates traversals that have not yet hit
the null link). -/
def iterRun (mem : Mem) : Nat → IfAddrsIterator → List Ifaddrs
  | 0, _ => []
  | fuel + 1, it =>
    match iterNext mem it with
    | none => []
    | some (r, it') => r :: iterRun mem fuel it'

/-- The records of the list nodes reachable from pointer `p` by following
`ifa_next` links, for `n` steps or until null, in list order. -/
def chain (mem : Mem) : Nat → Nat → List Ifaddrs
  | 0, _ => []
  | n + 1, p => if p = 0 then [] else mem p :: chain mem n (mem p).ifa_next

/-- The forward-link walk from `p` reaches the null pointer within `n`
steps (the list is finite and null-terminated from `p`). -/
def nullTerm (mem : Mem) : Nat → Nat → Bool
  | 0, p => p == 0
  | n + 1, p => p == 0 || nullTerm mem n (mem p).ifa_next

theorem iterRun_nil (mem : Mem) (fuel : Nat) : iterRun mem fuel { next := 0 } = [] := by
  cases fuel with
  | zero => rfl
  | succ f => simp [iterRun, iterNext]

theorem iterRun_eq_chain (mem : Mem) :
    ∀ (n : Nat) (p : Nat) (fuel : Nat), nullTerm mem n p = true → n ≤ fuel →
      iterRun mem fuel { next := p } = chain mem n p := by
  intro n
  induction n with
  | zero =>
    intro p fuel hterm _
    have hp : p = 0 := by simpa [nullTerm] using hterm
    subst hp
    simpa [chain] using iterRun_nil mem fuel
  | succ n ih =>
    intro p fuel hterm hfuel
    by_cases hp : p = 0
    · subst hp
      simpa [chain] using iterRun_nil mem fuel
    · have hterm' : nullTerm mem n (mem p).ifa_next = true := by
        simpa [nullTerm, hp] using hterm
      obtain ⟨f, rfl⟩ : ∃ f, fuel = f + 1 := by
        cases fuel with
        | zero => omega
        | succ f => exact ⟨f, rfl⟩
      have hf : n ≤ f := by omega
      simp [iterRun, iterNext, hp, chain, ih (mem p).ifa_next f hterm' hf]

/-- Socket-resource events emitted by `detect_interface_changes`, in program
order: raw socket creation, the explicit `close` on the bind-failure path,
the drop of the `UdpSocket` wrapper (which owns the file descriptor after
`from_raw_fd` and closes it on every exit path), and a receive attempt with
the byte capacity of the buffer passed to `recv`. -/
inductive SockEvent where
  | sockCreate (fd : Int) : SockEvent
  | sockCloseRaw (fd : Int) : SockEvent
  | wrapperDrop (fd : Int) : SockEvent
  | recvAttempt (bufLen : Nat) : SockEvent
deriving DecidableEq, Repr

/-- Outcomes of the syscalls performed by one `detect_interface_changes`
call: the `socket` return value (negative means failure, with
`socketErrno` as the OS last error), the `bind` return value (negative
means failure, with `bindErrno`), the outcome of the `setsockopt` underlying
`set_read_timeout` for an accepted duration (`none` = success), and the
outcome of `recv` (`ok` carries the datagram bytes). -/
structure NetlinkEnv where
  socketRet : Int
  socketErrno : Int
  bindRet : Int
  bindErrno : Int
  setTimeoutErr : Option ErrorKind
  recvResult : Except ErrorKind (List Nat)

/-- `UdpSocket::set_read_timeout` of the standard library (external to this
crate), per its documented contract: passing a zero `Duration` is rejected
with an `InvalidInput` error; otherwise the underlying `setsockopt` outcome
decides.  Durations are modelled as nanosecond counts. -/
def set_read_timeout (env : NetlinkEnv) (timeout : Option Nat) : Option ErrorKind :=
  match timeout with
  | some 0 => some ErrorKind.invalidInput
  | _ => env.setTimeoutErr

/-- `detect_interface_changes` (src/posix.rs:105-136): create an
`AF_NETLINK`/`NETLINK_ROUTE` raw socket, bind it to the `RTNLGRP_LINK`
group, wrap it into a `UdpSocket`, apply the caller's read timeout, and
perform one `recv` into a 65536-byte buffer.  Returns the function result
together with the socket-resource events of the call, in order. -/
def detect_interface_changes (env : NetlinkEnv) (timeout : Option Nat) :
    Except ErrorKind Unit × List SockEvent :=
  let s := env.socketRet
  if s < 0 then
    (Except.error (ErrorKind.osError env.socketErrno), [])
  else if env.bindRet < 0 then
    (Except.error (ErrorKind.osError env.bindErrno),
      [SockEvent.sockCreate s, SockEvent.sockCloseRaw s])
  else
    match set_read_timeout env timeout with
    | some e =>
      (Except.error e, [SockEvent.sockCreate s, SockEvent.wrapperDrop s])
    | none =>
      match env.recvResult with
      | Except.error e =>
        (Except.error e,
          [SockEvent.sockCreate s, SockEvent.recvAttempt 65536, SockEvent.wrapperDrop s])
      | Except.ok _ =>
        (Except.ok (),
          [SockEvent.sockCreate s, SockEvent.recvAttempt 65536, SockEvent.wrapperDrop s])

/-- The buffer capacities of the receive attempts in an event list. -/
def recvAttempts : List SockEvent → List Nat
  | [] => []
  | SockEvent.recvAttempt n :: rest => n :: recvAttempts rest
  | _ :: rest => recvAttempts rest

/-- Heap events of the interface-list component: the allocation performed by
a successful `getifaddrs`, a read of a list node by the iterator, and the
`freeifaddrs` call of `Drop for IfAddrs` (src/posix.rs:71-78). -/
inductive HEvent where
  | alloc (p : Nat) : HEvent
  | read (p : Nat) : HEvent
  | free (p : Nat) : HEvent
deriving DecidableEq, Repr

/-- `iterRun` instrumented with the heap reads it performs: each `next` call
on a non-null cursor dereferences the cursor once. -/
def iterRunT (mem : Mem) : Nat → IfAddrsIterator → List HEvent × List Ifaddrs
  | 0, _ => ([], [])
  | fuel + 1, it =>
    if it.next = 0 then ([], [])
    else
      let r := mem it.next
      let rest := iterRunT mem fuel { next := r.ifa_next }
      (HEvent.read it.next :: rest.1, r :: rest.2)

/-- The heap-event trace of one full handle lifetime under the ownership
discipline the source enforces: `IfAddrs::new`, then any number of `iter()`
traversals (each entry of `fuels` is one iterator run for that many `next`
calls), then the handle's `Drop`.  A failed acquisition produces no handle,
so nothing is allocated, read or freed. -/
def session (env : GetifaddrsEnv) (mem : Mem) (fuels : List Nat) : List HEvent :=
  match IfAddrs.new env with
  | Except.error _ => []
  | Except.ok s =>
    HEvent.alloc s.inner ::
      (fuels.map fun f => (iterRunT mem f s.iter).1).flatten ++ [HEvent.free s.inner]

/-- Occurrence count of a socket event in an event list. -/
def countEv (e : SockEvent) : List SockEvent → Nat
  | [] => 0
  | x :: rest => (if x = e then 1 else 0) + countEv e rest

/-- Occurrence count of a heap event in an event list. -/
def countH (e : HEvent) : List HEvent → Nat
  | [] => 0
  | x :: rest => (if x = e then 1 else 0) + countH e rest

/-- A sample interface record with the given forward link and name; both
alternate-address slots hold the null pointer. -/
def exNode (nxt : Nat) (nm : String) : Ifaddrs :=
  { ifa_next := nxt, ifa_name := nm, ifa_flags := 0,
    ifa_addr := RawSockaddr.v4 7, ifa_netmask := RawSockaddr.null,
    ifa_ifu := RawSockaddr.null, ifa_dstaddr := RawSockaddr.null }

/-- A sample foreign heap holding the three-node list 1 → 2 → 3 → null. -/
def exMem : Mem := fun p =>
  if p = 1 then exNode 2 "eth0"
  else if p = 2 then exNode 3 "eth1"
  else if p = 3 then exNode 0 "lo"
  else exNode 0 ""

theorem countH_append (e : HEvent) (l₁ l₂ : List HEvent) :
    countH e (l₁ ++ l₂) = countH e l₁ + countH e l₂ := by
  induction l₁ with
  | nil => simp [countH]
  | cons x rest ih => simp [countH, ih]; omega

/-- C1: every `iter()` call yields exactly the records of the list nodes
reachable from the handle's stored head pointer by following `ifa_next`
links until null, one record per node, by value, in list order; and any two
iterations over the same handle yield the same sequence, since each `iter()`
restarts from the stored head. -/
theorem iter_yields_reachable_chain (mem : Mem) (s : IfAddrs) (n f₁ f₂ : Nat)
    (hterm : nullTerm mem n s.inner = true) (h₁ : n ≤ f₁) (h₂ : n ≤ f₂) :
    iterRun mem f₁ s.iter = chain mem n s.inner ∧
    iterRun mem f₁ s.iter = iterRun mem f₂ s.iter := by
  have e₁ := iterRun_eq_chain mem n s.inner f₁ hterm h₁
  have e₂ := iterRun_eq_chain mem n s.inner f₂ hterm h₂
  refine ⟨?_, ?_⟩
  · simpa [IfAddrs.iter] using e₁
  · show iterRun mem f₁ { next := s.inner } = iterRun mem f₂ { next := s.inner }
    rw [e₁, e₂]

theorem iter_yields_reachable_chain_witness :
    nullTerm exMem 3 1 = true ∧ 3 ≤ 5 ∧ 3 ≤ 7 ∧
    (iterRun exMem 5 (IfAddrs.iter ⟨1⟩) = chain exMem 3 1 ∧
     iterRun exMem 5 (IfAddrs.iter ⟨1⟩) = iterRun exMem 7 (IfAddrs.iter ⟨1⟩)) :=
  ⟨by decide, by decide, by decide,
    iter_yields_reachable_chain exMem ⟨1⟩ 3 5 7 (by decide) (by decide) (by decide)⟩

/-- C7: a handle whose stored head pointer is null yields the empty
sequence — the first `next` call immediately signals end of sequence — and
no error is produced (the iterator has no error outcome at all). -/
theorem null_head_yields_empty (mem : Mem) (s : IfAddrs) (h : s.inner = 0) :
    iterNext mem s.iter = none ∧ ∀ fuel, iterRun mem fuel s.iter = [] := by
  refine ⟨?_, ?_⟩
  · simp [IfAddrs.iter, iterNext, h]
  · intro fuel
    show iterRun mem fuel { next := s.inner } = []
    rw [h]
    exact iterRun_nil mem fuel

theorem null_head_yields_empty_witness :
    IfAddrs.inner ⟨0⟩ = 0 ∧ iterNext exMem (IfAddrs.iter ⟨0⟩) = none ∧
      iterRun exMem 4 (IfAddrs.iter ⟨0⟩) = [] :=
  ⟨rfl, (null_head_yields_empty exMem ⟨0⟩ rfl).1,
    (null_head_yields_empty exMem ⟨0⟩ rfl).2 4⟩

/-- C8: once the iterator's cursor is null, `next` signals end of sequence,
and every subsequent call does too — `next` on a null cursor produces no
successor state, so the exhausted state is terminal and a run of any length
from it yields nothing. -/
theorem exhausted_is_terminal (mem : Mem) (it : IfAddrsIterator) (h : it.next = 0) :
    iterNext mem it = none ∧ ∀ fuel, iterRun mem fuel it = [] := by
  refine ⟨by simp [iterNext, h], ?_⟩
  intro fuel
  have : it = { next := 0 } := by cases it; simpa using h
  rw [this]
  exact iterRun_nil mem fuel

theorem exhausted_is_terminal_witness :
    IfAddrsIterator.next ⟨0⟩ = 0 ∧ iterNext exMem ⟨0⟩ = none ∧
      iterRun exMem 5 ⟨0⟩ = [] :=
  ⟨rfl, (exhausted_is_terminal exMem ⟨0⟩ rfl).1, (exhausted_is_terminal exMem ⟨0⟩ rfl).2 5⟩

theorem iterRunT_count_free (mem : Mem) (x : Nat) :
    ∀ (fuel : Nat) (it : IfAddrsIterator), countH (HEvent.free x) (iterRunT mem fuel it).1 = 0 := by
  intro fuel
  induction fuel with
  | zero => intro it; rfl
  | succ f ih =>
    intro it
    by_cases h : it.next = 0
    · simp [iterRunT, h, countH]
    · simp [iterRunT, h, countH, ih]

theorem session_count_free_flatten (mem : Mem) (x : Nat)
    (s : IfAddrs) (fuels : List Nat) :
    countH (HEvent.free x) ((fuels.map fun f => (iterRunT mem f s.iter).1).flatten) = 0 := by
  induction fuels with
  | nil => rfl
  | cons f fs ih =>
    simp [List.flatten, countH_append, iterRunT_count_free, ih]

/-- C4: for a successful acquisition, the full lifetime trace — acquire,
then any number of iterator traversals of any lengths, then release —
contains the `freeifaddrs` deallocation of the stored head exactly once, and
that deallocation is the last event of the trace: it happens at release, on
no other operation, and nothing accesses the list after it. -/
theorem list_freed_exactly_once (env : GetifaddrsEnv) (mem : Mem) (fuels : List Nat)
    (h : env.ret ≠ -1) :
    countH (HEvent.free env.outPtr) (session env mem fuels) = 1 ∧
    (session env mem fuels).getLast? = some (HEvent.free env.outPtr) := by
  have hnew : IfAddrs.new env = Except.ok { inner := env.outPtr } := by
    simp [IfAddrs.new, h]
  refine ⟨?_, ?_⟩
  · simp [session, hnew, countH, countH_append,
      session_count_free_flatten mem env.outPtr { inner := env.outPtr } fuels]
  · simp only [session, hnew]
    rw [List.getLast?_concat]

theorem list_freed_exactly_once_witness :
    (0 : Int) ≠ -1 ∧
    countH (HEvent.free 1) (session ⟨0, 1, 0⟩ exMem [5, 2, 0]) = 1 ∧
    (session ⟨0, 1, 0⟩ exMem [5, 2, 0]).getLast? = some (HEvent.free 1) :=
  ⟨by decide, (list_freed_exactly_once ⟨0, 1, 0⟩ exMem [5, 2, 0] (by decide)).1,
    (list_freed_exactly_once ⟨0, 1, 0⟩ exMem [5, 2, 0] (by decide)).2⟩

/-- C5: `IfAddrs::new` returns the OS last-error when `getifaddrs` reports
failure (return value `-1`), producing no handle; on any other return value
it produces a handle holding exactly the head pointer the syscall wrote. -/
theorem new_reports_os_error_or_handle (env : GetifaddrsEnv) :
    (env.ret = -1 → IfAddrs.new env = Except.error (ErrorKind.osError env.errno)) ∧
    (env.ret ≠ -1 → IfAddrs.new env = Except.ok { inner := env.outPtr }) := by
  constructor <;> intro h <;> simp [IfAddrs.new, h]

theorem new_reports_os_error_or_handle_witness :
    ((-1 : Int) = -1 ∧
      IfAddrs.new ⟨-1, 0, 13⟩ = Except.error (ErrorKind.osError 13)) ∧
    ((0 : Int) ≠ -1 ∧ IfAddrs.new ⟨0, 42, 0⟩ = Except.ok ⟨42⟩) :=
  ⟨⟨rfl, (new_reports_os_error_or_handle ⟨-1, 0, 13⟩).1 rfl⟩,
    ⟨by decide, (new_reports_os_error_or_handle ⟨0, 42, 0⟩).2 (by decide)⟩⟩

/-- C9: `do_broadcast` reads exactly the platform-selected alternate-address
field — the union slot `ifa_ifu` on Linux-family targets, `ifa_dstaddr`
elsewhere — passes it to `sockaddr::to_ipaddr`, and returns `none` whenever
that field is the null pointer or the collaborator reports an unsupported
address family. -/
theorem do_broadcast_platform_field (r : Ifaddrs) :
    do_broadcast Platform.linuxLike r = to_ipaddr r.ifa_ifu ∧
    do_broadcast Platform.bsdLike r = to_ipaddr r.ifa_dstaddr ∧
    (r.ifa_ifu = RawSockaddr.null → do_broadcast Platform.linuxLike r = none) ∧
    (∀ fam, r.ifa_ifu = RawSockaddr.unsupported fam →
      do_broadcast Platform.linuxLike r = none) ∧
    (r.ifa_dstaddr = RawSockaddr.null → do_broadcast Platform.bsdLike r = none) ∧
    (∀ fam, r.ifa_dstaddr = RawSockaddr.unsupported fam →
      do_broadcast Platform.bsdLike r = none) := by
  refine ⟨rfl, rfl, ?_, ?_, ?_, ?_⟩
  · intro h; simp [do_broadcast, h, to_ipaddr]
  · intro fam h; simp [do_broadcast, h, to_ipaddr]
  · intro h; simp [do_broadcast, h, to_ipaddr]
  · intro fam h; simp [do_broadcast, h, to_ipaddr]

theorem do_broadcast_platform_field_witness :
    do_broadcast Platform.linuxLike (exNode 0 "tun0") = to_ipaddr (exNode 0 "tun0").ifa_ifu ∧
    (exNode 0 "tun0").ifa_ifu = RawSockaddr.null ∧
    do_broadcast Platform.linuxLike (exNode 0 "tun0") = none :=
  ⟨(do_broadcast_platform_field (exNode 0 "tun0")).1, rfl,
    (do_broadcast_platform_field (exNode 0 "tun0")).2.2.1 rfl⟩

/-- A change-watcher environment in which socket creation and bind succeed,
`setsockopt` succeeds, and a datagram arrives. -/
def okEnv : NetlinkEnv :=
  { socketRet := 3, socketErrno := 0, bindRet := 0, bindErrno := 0,
    setTimeoutErr := none, recvResult := Except.ok [9] }

/-- A change-watcher environment with no pending event: setup succeeds and
the receive reports the would-block condition (the read timeout elapsed). -/
def noEventEnv : NetlinkEnv :=
  { socketRet := 3, socketErrno := 0, bindRet := 0, bindErrno := 0,
    setTimeoutErr := none, recvResult := Except.error ErrorKind.wouldBlock }

/-- A change-watcher environment in which socket creation fails. -/
def sockFailEnv : NetlinkEnv :=
  { socketRet := -1, socketErrno := 1, bindRet := 0, bindErrno := 0,
    setTimeoutErr := none, recvResult := Except.error ErrorKind.wouldBlock }

/-- A change-watcher environment in which `bind` fails. -/
def bindFailEnv : NetlinkEnv :=
  { socketRet := 3, socketErrno := 0, bindRet := -1, bindErrno := 13,
    setTimeoutErr := none, recvResult := Except.error ErrorKind.wouldBlock }

/-- C3: on every exit path of `detect_interface_changes` the notification
socket, once created, is released exactly once: if `socket` fails the
function returns the OS error having created nothing; otherwise the event
trace contains the creation once and exactly one release — the explicit
`close` when `bind` fails, else the wrapper's drop. -/
theorem socket_released_on_every_path (env : NetlinkEnv) (timeout : Option Nat) :
    (env.socketRet < 0 →
      (detect_interface_changes env timeout).2 = [] ∧
      (detect_interface_changes env timeout).1 =
        Except.error (ErrorKind.osError env.socketErrno)) ∧
    (0 ≤ env.socketRet →
      countEv (SockEvent.sockCreate env.socketRet)
        (detect_interface_changes env timeout).2 = 1 ∧
      countEv (SockEvent.sockCloseRaw env.socketRet)
          (detect_interface_changes env timeout).2 +
        countEv (SockEvent.wrapperDrop env.socketRet)
          (detect_interface_changes env timeout).2 = 1 ∧
      (env.bindRet < 0 →
        countEv (SockEvent.sockCloseRaw env.socketRet)
          (detect_interface_changes env timeout).2 = 1)) := by
  constructor
  · intro h
    simp [detect_interface_changes, h]
  · intro h
    have h' : ¬ env.socketRet < 0 := not_lt.mpr h
    by_cases hb : env.bindRet < 0
    · simp [detect_interface_changes, h', hb, countEv]
    · cases hst : set_read_timeout env timeout with
      | some e => simp [detect_interface_changes, h', hb, hst, countEv]
      | none =>
        cases hr : env.recvResult with
        | error e => simp [detect_interface_changes, h', hb, hst, hr, countEv]
        | ok bytes => simp [detect_interface_changes, h', hb, hst, hr, countEv]

theorem socket_released_on_every_path_witness :
    ((-1 : Int) < 0 ∧ (detect_interface_changes sockFailEnv none).2 = []) ∧
    ((0 : Int) ≤ 3 ∧
      countEv (SockEvent.sockCreate 3) (detect_interface_changes bindFailEnv none).2 = 1 ∧
      (-1 : Int) < 0 ∧
      countEv (SockEvent.sockCloseRaw 3) (detect_interface_changes bindFailEnv none).2 = 1) :=
  ⟨⟨by decide, ((socket_released_on_every_path sockFailEnv none).1 (by decide)).1⟩,
    ⟨by decide, ((socket_released_on_every_path bindFailEnv none).2 (by decide)).1,
      by decide,
      ((socket_released_on_every_path bindFailEnv none).2 (by decide)).2.2 (by decide)⟩⟩

/-- C6: once setup and the timeout application succeed, the call performs
exactly one receive attempt, into a 65536-byte buffer, and any successful
receive makes the function return success regardless of the datagram's
bytes, which are never examined. -/
theorem single_recv_attempt_64k (env : NetlinkEnv) (timeout : Option Nat)
    (hs : 0 ≤ env.socketRet) (hb : 0 ≤ env.bindRet)
    (ht : set_read_timeout env timeout = none) :
    recvAttempts (detect_interface_changes env timeout).2 = [65536] ∧
    (∀ bytes, env.recvResult = Except.ok bytes →
      (detect_interface_changes env timeout).1 = Except.ok ()) := by
  have hs' : ¬ env.socketRet < 0 := not_lt.mpr hs
  have hb' : ¬ env.bindRet < 0 := not_lt.mpr hb
  constructor
  · cases hr : env.recvResult with
    | error e => simp [detect_interface_changes, hs', hb', ht, hr, recvAttempts]
    | ok bytes => simp [detect_interface_changes, hs', hb', ht, hr, recvAttempts]
  · intro bytes hr
    simp [detect_interface_changes, hs', hb', ht, hr]

theorem single_recv_attempt_64k_witness :
    (0 : Int) ≤ okEnv.socketRet ∧ (0 : Int) ≤ okEnv.bindRet ∧
    set_read_timeout okEnv none = none ∧ okEnv.recvResult = Except.ok [9] ∧
    recvAttempts (detect_interface_changes okEnv none).2 = [65536] ∧
    (detect_interface_changes okEnv none).1 = Except.ok () :=
  ⟨by decide, by decide, rfl, rfl,
    (single_recv_attempt_64k okEnv none (by decide) (by decide) rfl).1,
    (single_recv_attempt_64k okEnv none (by decide) (by decide) rfl).2 [9] rfl⟩

/-- C10: after socket creation and bind succeed, the caller's timeout is
applied via the wrapper's set-read-timeout; a zero duration is rejected
there, so the function returns the invalid-input error — an error class
distinct from the setup (OS) errors and from the would-block condition —
without ever attempting a receive, while the wrapper's drop still closes
the socket exactly once. -/
theorem zero_duration_rejected_after_setup (env : NetlinkEnv)
    (hs : 0 ≤ env.socketRet) (hb : 0 ≤ env.bindRet) :
    (detect_interface_changes env (some 0)).1 = Except.error ErrorKind.invalidInput ∧
    ErrorKind.invalidInput ≠ ErrorKind.wouldBlock ∧
    (∀ e : Int, ErrorKind.invalidInput ≠ ErrorKind.osError e) ∧
    recvAttempts (detect_interface_changes env (some 0)).2 = [] ∧
    countEv (SockEvent.wrapperDrop env.socketRet)
      (detect_interface_changes env (some 0)).2 = 1 := by
  have hs' : ¬ env.socketRet < 0 := not_lt.mpr hs
  have hb' : ¬ env.bindRet < 0 := not_lt.mpr hb
  refine ⟨?_, by simp, by intro e; simp, ?_, ?_⟩
  · simp [detect_interface_changes, set_read_timeout, hs', hb']
  · simp [detect_interface_changes, set_read_timeout, hs', hb', recvAttempts]
  · simp [detect_interface_changes, set_read_timeout, hs', hb', countEv]

theorem zero_duration_rejected_after_setup_witness :
    (0 : Int) ≤ okEnv.socketRet ∧ (0 : Int) ≤ okEnv.bindRet ∧
    (detect_interface_changes okEnv (some 0)).1 = Except.error ErrorKind.invalidInput ∧
    countEv (SockEvent.wrapperDrop 3) (detect_interface_changes okEnv (some 0)).2 = 1 :=
  ⟨by decide, by decide,
    (zero_duration_rejected_after_setup okEnv (by decide) (by decide)).1,
    (zero_duration_rejected_after_setup okEnv (by decide) (by decide)).2.2.2.2⟩

/-- C2, counterexample: with a zero duration and no pending event, the call
does not return the would-block error — the wrapper's set-read-timeout
rejects the zero duration first, so the invalid-input error is returned. -/
theorem zero_timeout_not_wouldblock_cex :
    (detect_interface_changes noEventEnv (some 0)).1 =
      Except.error ErrorKind.invalidInput ∧
    (detect_interface_changes noEventEnv (some 0)).1 ≠
      Except.error ErrorKind.wouldBlock := by
  refine ⟨rfl, ?_⟩
  intro h
  have h1 : (detect_interface_changes noEventEnv (some 0)).1 =
      Except.error ErrorKind.invalidInput := rfl
  rw [h1] at h
  simp at h

/-- C2, amended: for a positive duration on a channel with no pending event
(the receive reports the would-block condition once the timeout elapses),
`detect_interface_changes` returns exactly the would-block error, which is
distinct from the OS setup errors and from the invalid-input class; the
zero duration itself is rejected by set-read-timeout before any receive. -/
theorem positive_timeout_returns_wouldblock (env : NetlinkEnv) (d : Nat)
    (hs : 0 ≤ env.socketRet) (hb : 0 ≤ env.bindRet)
    (ht : env.setTimeoutErr = none) (hd : d ≠ 0)
    (hr : env.recvResult = Except.error ErrorKind.wouldBlock) :
    (detect_interface_changes env (some d)).1 = Except.error ErrorKind.wouldBlock ∧
    (∀ e : Int, ErrorKind.wouldBlock ≠ ErrorKind.osError e) ∧
    ErrorKind.wouldBlock ≠ ErrorKind.invalidInput := by
  have hs' : ¬ env.socketRet < 0 := not_lt.mpr hs
  have hb' : ¬ env.bindRet < 0 := not_lt.mpr hb
  obtain ⟨n, rfl⟩ := Nat.exists_eq_succ_of_ne_zero hd
  refine ⟨?_, by intro e; simp, by simp⟩
  simp [detect_interface_changes, set_read_timeout, hs', hb', ht, hr]

theorem positive_timeout_returns_wouldblock_witness :
    (0 : Int) ≤ noEventEnv.socketRet ∧ (0 : Int) ≤ noEventEnv.bindRet ∧
    noEventEnv.setTimeoutErr = none ∧ (1 : Nat) ≠ 0 ∧
    noEventEnv.recvResult = Except.error ErrorKind.wouldBlock ∧
    (detect_interface_changes noEventEnv (some 1)).1 =
      Except.error ErrorKind.wouldBlock :=
  ⟨by decide, by decide, rfl, by decide, rfl,
    (positive_timeout_returns_wouldblock noEventEnv 1 (by decide) (by decide) rfl
      (by decide) rfl).1⟩

end IfAddrsSpec
